import Mathlib

/-!
Shallow embedding of the `tickergadse` crawler core:
`src/tickergadse/dataclasses.py`, `src/tickergadse/gadse.py` and the
`join_dicts` helper of `tickergadse.utils`.

Modelling conventions:
* `dt.datetime` / `dt.timedelta` values are modelled as `Int` (an instant on a
  single timeline; `pytz` conversions do not change the instant, so
  `astimezone(pytz.utc)` is the identity on the modelled value).
* Python `dict` is modelled as an insertion-ordered association list
  (`PyDict`); `d[k] = v` keeps the position of an existing key and appends a
  fresh key at the end, exactly as CPython does.  Python `dict` equality `==`
  is extensional (`PyDictEq`).
* Python `set` is modelled as a list with membership-based operations;
  Python set equality is extensional (`PySetEq`).
* The network layer (`DerStandardAPI`) is modelled by an environment `Env`
  giving, for each fetch, the outcome after the bounded retry loop:
  `some xs` when one of the attempts succeeded, `none` when all `retries`
  attempts failed (the loop's only observable outcomes).
* Exceptions are modelled with `Except`; at both `raise` sites of
  `TickerGadse._update` no field of the `PersistentState` has been mutated
  yet (all mutation happens in the `zip` loop, which runs only after
  `asyncio.gather` returned), and both `raise` sites of
  `TickerGadse.restore_state` precede the assignment to `self._states`,
  which is what justifies the `run...` wrappers returning the unchanged
  state on an error.
-/

namespace Tickergadse

/-- Instants of `dt.datetime` (and spans of `dt.timedelta`), as integers. -/
abbrev DateTime := Int

/-- Dataclass `User` of `src/tickergadse/dataclasses.py` (frozen dataclass:
structural equality and hashing over all of its fields). -/
structure User where
  user_id : Int
  name : String
deriving DecidableEq, Repr

/-- Dataclass `Thread` of `src/tickergadse/dataclasses.py`. -/
structure Thread where
  thread_id : Int
  published : DateTime
  ticker_id : Int
  user : User
  upvotes : Int
  downvotes : Int
  title : Option String := none
  message : Option String := none
deriving DecidableEq, Repr

/-- Dataclass `Posting` of `src/tickergadse/dataclasses.py`. -/
structure Posting where
  posting_id : Int
  parent_id : Option Int
  user : User
  thread_id : Int
  published : DateTime
  upvotes : Int
  downvotes : Int
  title : Option String := none
  message : Option String := none
deriving DecidableEq, Repr

/-- A Python `dict`, as an insertion-ordered association list. -/
abbrev PyDict (K V : Type) := List (K × V)

/-- Python `d.get(k)` / `d[k]`: value of the first entry with key `k`. -/
def dlookup {K V : Type} [DecidableEq K] (k : K) : PyDict K V → Option V
  | [] => none
  | (k0, v) :: d => if k0 = k then some v else dlookup k d

/-- Python `d[k] = v`: replace the value in place when the key is present
(keeping its position), otherwise append the new entry at the end. -/
def dstore {K V : Type} [DecidableEq K] (d : PyDict K V) (k : K) (v : V) :
    PyDict K V :=
  if (dlookup k d).isSome then
    d.map (fun kv => if kv.1 = k then (k, v) else kv)
  else
    d ++ [(k, v)]

/-- Python `s.add(x)` on a set modelled as a list. -/
def pysetAdd {α : Type} [DecidableEq α] (s : List α) (x : α) : List α :=
  if x ∈ s then s else s ++ [x]

/-- Python `dict` equality `==`: same keys, same values. -/
def PyDictEq {K V : Type} [DecidableEq K] (a b : PyDict K V) : Prop :=
  ∀ k, dlookup k a = dlookup k b

/-- Python `set` equality `==`: same members. -/
def PySetEq {α : Type} (a b : List α) : Prop :=
  ∀ x, x ∈ a ↔ x ∈ b

/-- Modelled from the spec: `join_dicts` is imported from
`tickergadse.utils` by `gadse.py` and `__main__.py` and exercised by
`tests/test_utils.py`, but its definition is absent from
`src/tickergadse/utils.py`.  Following §4.2 of the specification: for every
key present in both inputs the result holds `op a[k] b[k]`; a key present in
only one input keeps that input's value; the inputs are not mutated. -/
def join_dicts {K V : Type} [DecidableEq K] (a b : PyDict K V)
    (op : V → V → V) : PyDict K V :=
  a.map (fun kv =>
    match dlookup kv.1 b with
    | some w => (kv.1, op kv.2 w)
    | none => kv)
  ++ b.filter (fun kv => (dlookup kv.1 a).isNone)

/-- Lookup-level combination realised by `join_dicts` (helper for stating
its extensional behaviour). -/
def optCombine {V : Type} (op : V → V → V) :
    Option V → Option V → Option V
  | some v, some w => some (op v w)
  | some v, none => some v
  | none, w => w

/-- Method `TickerGadse._posting_stats`: per-author posting counts of one
thread (`result[p.user] = result.get(p.user, 0) + 1` over the postings). -/
def posting_stats (postings : List Posting) : PyDict User Int :=
  postings.foldl
    (fun result p => dstore result p.user ((dlookup p.user result).getD 0 + 1))
    []

/-- Exception `UpdateError` of `gadse.py`, with one constructor per `raise`
site (`"cookie or thread update failed"`, `"failed to download postings"`). -/
inductive UpdateError
  | cookieOrThreadUpdateFailed
  | postingDownloadFailed
deriving DecidableEq, Repr

/-- The exceptions raised by `TickerGadse.restore_state` before any state is
assigned: `TypeError("invalid type restored from persistent state")` and
`ValueError("ticker IDs of state don't match")`.  (The specification calls
the restore-failure error `RestoreError`; the type is distinct from
`UpdateError`.) -/
inductive RestoreError
  | typeError
  | valueError
deriving DecidableEq, Repr

/-- Dataclass `TickerGadse.PersistentState`, with its default field values
(`dict()`, `set()`, and `dt.datetime(1970, 1, 1)`, the epoch, here `0`). -/
structure PersistentState where
  ticker_id : Int
  retired_postcount : PyDict User Int := []
  active_postcount : PyDict User Int := []
  retired_threads : List Thread := []
  last_update : DateTime := 0
deriving DecidableEq, Repr

/-- A value decoded by `pickle.load` from a snapshot: either a
`TickerGadse.PersistentState` instance or some other object. -/
inductive PyObj
  | pstate (s : PersistentState)
  | other (tag : Nat)
deriving DecidableEq, Repr

/-- Python `isinstance(s, TickerGadse.PersistentState)`. -/
def isPState : PyObj → Bool
  | .pstate _ => true
  | .other _ => false

/-- Extract the `PersistentState` from a decoded object, when it is one. -/
def toPState : PyObj → Option PersistentState
  | .pstate s => some s
  | .other _ => none

/-- The ticker ids of a list of states (`s.ticker_id for s in states`). -/
def tickerIds (l : List PersistentState) : List Int :=
  l.map (fun s => s.ticker_id)

/-- Python set equality of `{s.ticker_id for s in a}` and
`{s.ticker_id for s in b}`, as a Boolean on the underlying lists. -/
def sameIdSet (a b : List Int) : Bool :=
  a.all (fun i => i ∈ b) && b.all (fun i => i ∈ a)

/-- Class `TickerGadse`: the coordinator.  `retries` and `delay` configure
the retry loops, whose outcomes are abstracted into `Env`. -/
structure Gadse where
  window : Int
  retries : Nat
  delay : Int
  states : List PersistentState
deriving DecidableEq, Repr

/-- Constructor `TickerGadse.__init__`: one fresh `PersistentState` per
ticker id, in the given order. -/
def mkGadse (ticker_ids : List Int) (window : Int) (retries : Nat)
    (delay : Int) : Gadse :=
  { window := window
    retries := retries
    delay := delay
    states := ticker_ids.map (fun i => { ticker_id := i }) }

/-- Method `TickerGadse.save_state`: `pickle.dump(self._states, fp)`.  The
snapshot is modelled at the decoded-payload level: the sequence of pickled
state objects (pickle faithfully round-trips these frozen dataclasses). -/
def save_state (g : Gadse) : List PyObj :=
  g.states.map .pstate

/-- Method `TickerGadse.restore_state`, applied to the decoded payload:
check every element is a `PersistentState` (else `TypeError`), check the
ticker-id sets coincide (else `ValueError`), then replace `self._states`
wholesale with the decoded sequence. -/
def restore_state (g : Gadse) (payload : List PyObj) :
    Except RestoreError Gadse :=
  if !(payload.all isPState) then
    .error .typeError
  else
    let states := payload.filterMap toPState
    if !(sameIdSet (tickerIds states) (tickerIds g.states)) then
      .error .valueError
    else
      .ok { g with states := states }

/-- The coordinator after a `restore_state` call, paired with the raised
exception if any: both `raise` sites precede the assignment to
`self._states`, so on an exception the coordinator is unchanged. -/
def runRestore (g : Gadse) (payload : List PyObj) :
    Gadse × Option RestoreError :=
  match restore_state g payload with
  | .ok g2 => (g2, none)
  | .error e => (g, some e)

/-- Outcomes of the network layer for one update cycle: each field gives the
result of the corresponding retried fetch (`none` when all attempts fail),
plus the two clock reads of `_update`. -/
structure Env where
  fetchThreads : Int → Option (List Thread)
  fetchPostings : Thread → Option (List Posting)
  now : DateTime
  utcnow : DateTime

/-- The candidate list of `TickerGadse._update`:
`update_threads = list(set(threads) - state.retired_threads)` followed by
`update_threads.sort(key=lambda t: t.published)`. -/
def update_threads (s : PersistentState) (threads : List Thread) :
    List Thread :=
  List.insertionSort (fun a b => a.published ≤ b.published)
    ((threads.dedup).filter (fun t => !(decide (t ∈ s.retired_threads))))

/-- The `asyncio.gather` over `_get_postings`: all fetches run; the batch
yields the list of posting lists when every fetch succeeded within its
retry budget, and raises (`none`) when any fetch exhausted its retries. -/
def gather_postings (env : Env) : List Thread → Option (List (List Posting))
  | [] => some []
  | t :: ts =>
    match env.fetchPostings t, gather_postings env ts with
    | some p, some ps => some (p :: ps)
    | _, _ => none

/-- One iteration of the `zip(update_threads, postings)` loop of `_update`:
the accumulator carries the mutated state and the `active_threads` dict
being built for this cycle. -/
def update_fold_step (g : Gadse) (env : Env)
    (acc : PersistentState × PyDict User Int)
    (tp : Thread × List Posting) : PersistentState × PyDict User Int :=
  if tp.1.published < env.now - g.window then
    ({ acc.1 with
        retired_threads := pysetAdd acc.1.retired_threads tp.1
        retired_postcount :=
          join_dicts acc.1.retired_postcount (posting_stats tp.2)
            (fun x y => x + y) },
      acc.2)
  else
    (acc.1, join_dicts acc.2 (posting_stats tp.2) (fun x y => x + y))

/-- Method `TickerGadse._update`: one update cycle for one ticker; the
final two statements commit the freshly built `active_threads` dict and
`dt.datetime.utcnow()` into the state. -/
def _update (g : Gadse) (env : Env) (s : PersistentState) :
    Except UpdateError PersistentState :=
  match env.fetchThreads s.ticker_id with
  | none => .error .cookieOrThreadUpdateFailed
  | some threads =>
    match gather_postings env (update_threads s threads) with
    | none => .error .postingDownloadFailed
    | some postings =>
      .ok { (((update_threads s threads).zip postings).foldl
                (update_fold_step g env) (s, [])).1 with
            active_postcount :=
              (((update_threads s threads).zip postings).foldl
                (update_fold_step g env) (s, [])).2
            last_update := env.utcnow }

/-- The per-ticker state after a `_update` call, paired with the raised
exception if any: both `raise` sites of `_update` precede every mutation of
the state (the loop that mutates runs only after `asyncio.gather`
returned), so on an exception the state is unchanged. -/
def runUpdateOne (g : Gadse) (env : Env) (s : PersistentState) :
    PersistentState × Option UpdateError :=
  match _update g env s with
  | .ok s2 => (s2, none)
  | .error e => (s, some e)

/-- The state a ticker ends the cycle with when the coordinator loop reaches
it: the updated state on success, the unchanged state on failure. -/
def updOk (g : Gadse) (env : Env) (s : PersistentState) : PersistentState :=
  (runUpdateOne g env s).1

/-- The loop of `TickerGadse.update` (`for s in self._states: await
self._update(s)`): sequential, aborted by the first exception, which
propagates to the caller; states not yet reached keep their value. -/
def updateStates (g : Gadse) (env : Env) :
    List PersistentState → List PersistentState × Option UpdateError
  | [] => ([], none)
  | s :: rest =>
    match _update g env s with
    | .error e => (s :: rest, some e)
    | .ok s2 =>
      let r := updateStates g env rest
      (s2 :: r.1, r.2)

/-- Method `TickerGadse.update`, with the exception it lets escape. -/
def update (g : Gadse) (env : Env) : Gadse × Option UpdateError :=
  let r := updateStates g env g.states
  ({ g with states := r.1 }, r.2)

/-- Several update cycles in sequence for one ticker (the caller invokes
`update` repeatedly; a raised `UpdateError` is caught by the caller and the
next cycle starts from the state left behind). -/
def runCycles (g : Gadse) (s : PersistentState) : List Env → PersistentState
  | [] => s
  | env :: envs => runCycles g (runUpdateOne g env s).1 envs

/-- Property `TickerGadse.ranking`: fold of `join_dicts` over the retired
and active counts of every tracked state, in tracked order. -/
def ranking (g : Gadse) : PyDict User Int :=
  g.states.foldl
    (fun r s =>
      join_dicts (join_dicts r s.retired_postcount (fun x y => x + y))
        s.active_postcount (fun x y => x + y))
    []

/-- Python `max` over a list: `none` models the `ValueError` raised on an
empty sequence. -/
def pymax : List Int → Option Int
  | [] => none
  | x :: xs => some (xs.foldl max x)

/-- Property `TickerGadse.last_update`:
`max(s.last_update for s in self._states)`. -/
def last_update (g : Gadse) : Option DateTime :=
  pymax (g.states.map (fun s => s.last_update))

/-- The postings a thread's successful fetch yielded
(`(env.fetchPostings t).getD []`). -/
def fp (env : Env) (t : Thread) : List Posting :=
  (env.fetchPostings t).getD []

/-- The reclassification test of `_update`: `true` when the thread stays
active, i.e. is not older than `now - window`. -/
def isActive (g : Gadse) (env : Env) (t : Thread) : Bool :=
  !(decide (t.published < env.now - g.window))

/-- Folding the per-author stats of a sequence of threads into an
accumulator with `join_dicts` and addition: the shape in which `_update`
builds the `active_threads` mapping of a cycle. -/
def activeFold (env : Env) (a : PyDict User Int) (L : List Thread) :
    PyDict User Int :=
  L.foldl (fun a t => join_dicts a (posting_stats (fp env t))
    (fun x y => x + y)) a

/- ## Sample values, used to instantiate the proved theorems at concrete
inputs -/

/-- A sample author. -/
def sampleUser : User := { user_id := 1, name := "a" }

/-- A sample author with the same id as `sampleUser` but another name
(the shape left behind when an account deletion relabels the name). -/
def sampleUserB : User := { user_id := 1, name := "b" }

/-- A sample thread of ticker 1, published at instant 0. -/
def sampleThread : Thread :=
  { thread_id := 10, published := 0, ticker_id := 1, user := sampleUser
    upvotes := 0, downvotes := 0 }

/-- A sample old thread of ticker 1, published at instant -100. -/
def sampleThreadOld : Thread :=
  { thread_id := 11, published := -100, ticker_id := 1, user := sampleUser
    upvotes := 0, downvotes := 0 }

/-- A sample thread of ticker 2. -/
def sampleThread2 : Thread :=
  { thread_id := 12, published := 0, ticker_id := 2, user := sampleUser
    upvotes := 0, downvotes := 0 }

/-- A sample posting by `sampleUser`. -/
def samplePosting : Posting :=
  { posting_id := 20, parent_id := none, user := sampleUser, thread_id := 10
    published := 1, upvotes := 0, downvotes := 0 }

/-- A fresh per-ticker state for ticker 1. -/
def sampleState : PersistentState := { ticker_id := 1 }

/-- An environment where the thread listing of ticker 1 succeeds but every
posting fetch exhausts its retries. -/
def envFailPostings : Env :=
  { fetchThreads := fun i => if i = 1 then some [sampleThread] else none
    fetchPostings := fun _ => none
    now := 40, utcnow := 3 }

/-- An environment where ticker 1 has a recent and an old thread, both with
one posting by `sampleUser`, and every fetch succeeds; at `now = 40` with a
window of 50 the old thread falls outside the window. -/
def envOk : Env :=
  { fetchThreads := fun i =>
      if i = 1 then some [sampleThread, sampleThreadOld] else none
    fetchPostings := fun _ => some [samplePosting]
    now := 40, utcnow := 3 }

/-- An environment where the thread listing of ticker 1 fails all attempts
while ticker 2 lists one thread with one posting. -/
def envFirstFails : Env :=
  { fetchThreads := fun i => if i = 2 then some [sampleThread2] else none
    fetchPostings := fun _ => some [samplePosting]
    now := 40, utcnow := 3 }

/- ## Lemmas about the dictionary model -/

theorem dlookup_append {K V : Type} [DecidableEq K] (k : K)
    (l1 l2 : PyDict K V) :
    dlookup k (l1 ++ l2) =
      match dlookup k l1 with
      | some v => some v
      | none => dlookup k l2 := by
  induction l1 with
  | nil => simp [dlookup]
  | cons kv l ih =>
    obtain ⟨k0, v0⟩ := kv
    by_cases h : k0 = k
    · simp [dlookup, h]
    · simp [dlookup, h, ih]

theorem dlookup_join_map {K V : Type} [DecidableEq K] (k : K)
    (a b : PyDict K V) (op : V → V → V) :
    dlookup k (a.map (fun kv =>
        match dlookup kv.1 b with
        | some w => (kv.1, op kv.2 w)
        | none => kv)) =
      Option.map
        (fun v =>
          match dlookup k b with
          | some w => op v w
          | none => v)
        (dlookup k a) := by
  induction a with
  | nil => simp [dlookup]
  | cons kv a ih =>
    obtain ⟨k0, v0⟩ := kv
    by_cases h : k0 = k
    · subst h
      cases hb : dlookup k0 b <;> simp [dlookup, hb]
    · cases hb : dlookup k0 b <;> simp [dlookup, hb, h, ih]

theorem dlookup_join_filter {K V : Type} [DecidableEq K] (k : K)
    (a b : PyDict K V) :
    dlookup k (b.filter (fun kv => (dlookup kv.1 a).isNone)) =
      if (dlookup k a).isNone then dlookup k b else none := by
  induction b with
  | nil => cases h : (dlookup k a).isNone <;> simp [dlookup, h]
  | cons kv b ih =>
    obtain ⟨k0, w⟩ := kv
    by_cases hk : k0 = k
    · subst hk
      cases h : (dlookup k0 a).isNone <;>
        simp [List.filter_cons, h, dlookup, ih]
    · cases h : (dlookup k0 a).isNone <;>
        simp [List.filter_cons, h, dlookup, hk, ih]

theorem dlookup_join {K V : Type} [DecidableEq K] (a b : PyDict K V)
    (op : V → V → V) (k : K) :
    dlookup k (join_dicts a b op) =
      optCombine op (dlookup k a) (dlookup k b) := by
  unfold join_dicts
  rw [dlookup_append, dlookup_join_map, dlookup_join_filter]
  cases ha : dlookup k a <;> cases hb : dlookup k b <;>
    simp [optCombine, ha, hb]

theorem optCombine_assoc {V : Type} (op : V → V → V)
    (hop : ∀ x y z, op (op x y) z = op x (op y z)) (x y z : Option V) :
    optCombine op (optCombine op x y) z =
      optCombine op x (optCombine op y z) := by
  cases x <;> cases y <;> cases z <;> simp [optCombine, hop]

theorem optCombine_comm {V : Type} (op : V → V → V)
    (hop : ∀ x y, op x y = op y x) (x y : Option V) :
    optCombine op x y = optCombine op y x := by
  cases x <;> cases y <;> simp [optCombine, hop]

theorem dlookup_dstore_map {K V : Type} [DecidableEq K] (k k2 : K) (v : V)
    (d : PyDict K V) :
    dlookup k2 (d.map (fun kv => if kv.1 = k then (k, v) else kv)) =
      if k2 = k then (dlookup k d).map (fun _ => v) else dlookup k2 d := by
  induction d with
  | nil => by_cases h : k2 = k <;> simp [dlookup, h]
  | cons kv d ih =>
    obtain ⟨k0, w⟩ := kv
    have hmap :
        List.map (fun kv => if kv.1 = k then (k, v) else kv) ((k0, w) :: d) =
          (if k0 = k then (k, v) else (k0, w)) ::
            List.map (fun kv => if kv.1 = k then (k, v) else kv) d := rfl
    rw [hmap]
    by_cases h0 : k0 = k
    · subst h0
      rw [if_pos rfl]
      by_cases h2 : k2 = k0
      · subst h2
        simp [dlookup]
      · simp [dlookup, h2, Ne.symm h2, ih]
    · rw [if_neg h0]
      by_cases h2 : k0 = k2
      · subst h2
        simp [dlookup, h0]
      · simp [dlookup, h0, h2, ih]

theorem dlookup_dstore {K V : Type} [DecidableEq K] (k k2 : K) (v : V)
    (d : PyDict K V) :
    dlookup k2 (dstore d k v) =
      if k2 = k then some v else dlookup k2 d := by
  unfold dstore
  cases h : dlookup k d with
  | none =>
    simp only [h, Option.isSome_none, Bool.false_eq_true, if_false]
    rw [dlookup_append]
    by_cases h2 : k2 = k
    · subst h2; simp [h, dlookup]
    · cases h3 : dlookup k2 d <;> simp [dlookup, h2, Ne.symm h2, h3]
  | some x =>
    simp only [h, Option.isSome_some, if_true]
    rw [dlookup_dstore_map]
    by_cases h2 : k2 = k <;> simp [h2, h]

/- ## Claim theorems: ranking merge, serialization, accessors -/

/-- C5: `join_dicts` realises the ranking-merge contract: for every key the
result holds `op` of the two values when the key is in both inputs and the
single value otherwise; over `Author → int` mappings with addition it is
associative and commutative up to Python `dict` equality. -/
theorem c5_ranking_merge_algebra :
    (∀ (K V : Type) [DecidableEq K] (a b : PyDict K V) (op : V → V → V)
        (k : K),
        dlookup k (join_dicts a b op) =
          optCombine op (dlookup k a) (dlookup k b)) ∧
    ∀ (a b c : PyDict User Int),
      PyDictEq
        (join_dicts (join_dicts a b (fun x y => x + y)) c (fun x y => x + y))
        (join_dicts a (join_dicts b c (fun x y => x + y)) (fun x y => x + y)) ∧
      PyDictEq (join_dicts a b (fun x y => x + y))
        (join_dicts b a (fun x y => x + y)) := by
  refine ⟨fun K V _ a b op k => dlookup_join a b op k, fun a b c => ⟨?_, ?_⟩⟩
  · intro k
    rw [dlookup_join, dlookup_join, dlookup_join, dlookup_join]
    exact optCombine_assoc _ (fun x y z => Int.add_assoc x y z) _ _ _
  · intro k
    rw [dlookup_join, dlookup_join]
    exact optCombine_comm _ (fun x y => Int.add_comm x y) _ _

/-- C8: saving the coordinator state and restoring from the produced
snapshot yields the coordinator back unchanged: every per-ticker state
round-trips in all five fields. -/
theorem c8_save_restore_roundtrip (g : Gadse) :
    restore_state g (save_state g) = .ok g := by
  unfold restore_state save_state
  have h1 : (g.states.map PyObj.pstate).all isPState = true := by
    rw [List.all_eq_true]
    intro x hx
    obtain ⟨s, _, rfl⟩ := List.mem_map.mp hx
    rfl
  have h2 : ∀ l : List PersistentState,
      (l.map PyObj.pstate).filterMap toPState = l := by
    intro l
    induction l with
    | nil => rfl
    | cons s l ih => simp [List.filterMap_cons, toPState, ih]
  have h3 : ∀ l : List Int, sameIdSet l l = true := by
    intro l
    simp [sameIdSet, List.all_eq_true]
  simp [h1, h2, h3]

/-- C9: when the decoded snapshot payload is not a sequence of
`PersistentState`-shaped values, `restore_state` fails with the restore
error (`TypeError`), a type distinct from `UpdateError`; and every failed
restore leaves the coordinator's pre-restore states completely unchanged. -/
theorem c9_restore_failure_semantics (g : Gadse) (payload : List PyObj) :
    (payload.all isPState = false →
      runRestore g payload = (g, some RestoreError.typeError)) ∧
    ∀ e, (runRestore g payload).2 = some e → (runRestore g payload).1 = g := by
  constructor
  · intro h
    simp [runRestore, restore_state, h]
  · intro e he
    unfold runRestore at he ⊢
    cases hr : restore_state g payload with
    | ok g2 => rw [hr] at he; simp at he
    | error e2 => rfl

/-- Closed instance of `c9_restore_failure_semantics`: a payload holding a
non-state object is rejected with the type error and the coordinator keeps
its states. -/
theorem c9_restore_failure_semantics_witness :
    (List.all [PyObj.other 0] isPState = false) ∧
    runRestore (mkGadse [] 0 0 0) [PyObj.other 0] =
      (mkGadse [] 0 0 0, some RestoreError.typeError) :=
  ⟨rfl,
    (c9_restore_failure_semantics (mkGadse [] 0 0 0) [PyObj.other 0]).1 rfl⟩

/-- C1: evaluation of `restore_state` at the failing input of the
repository's own test `test_restore_state[state-subset]`: a coordinator
tracking ids 1, 2, 3 restored from a snapshot holding states for ids 1 and
2 raises `ValueError` and leaves every state fresh, instead of performing
the reconciliation the test asserts (ids 1 and 2 updated from the
snapshot, id 3 untouched). -/
theorem c1_restore_rejects_overlapping_snapshot :
    runRestore (mkGadse [1, 2, 3] 86400 5 10)
        [PyObj.pstate { ticker_id := 1, last_update := 5 },
         PyObj.pstate { ticker_id := 2, last_update := 5 }] =
      (mkGadse [1, 2, 3] 86400 5 10, some RestoreError.valueError) := by
  rfl

/-- Helper: the loop of `_posting_stats` counts, for each author, the
postings whose `user` equals that author (full structural equality). -/
theorem posting_stats_fold (u : User) :
    ∀ (ps : List Posting) (d : PyDict User Int),
      dlookup u (ps.foldl
          (fun result p =>
            dstore result p.user ((dlookup p.user result).getD 0 + 1)) d) =
        if (ps.filter (fun p => p.user = u)).length = 0 then dlookup u d
        else some ((dlookup u d).getD 0 +
          ((ps.filter (fun p => p.user = u)).length : Int)) := by
  intro ps
  induction ps with
  | nil => intro d; simp
  | cons p ps ih =>
    intro d
    rw [List.foldl_cons, ih]
    by_cases hp : p.user = u
    · have hstore : dlookup u (dstore d p.user
          ((dlookup p.user d).getD 0 + 1)) =
            some ((dlookup u d).getD 0 + 1) := by
        rw [dlookup_dstore, if_pos hp.symm, hp]
      rw [List.filter_cons_of_pos (by simp [hp])]
      by_cases hn : (ps.filter (fun p => p.user = u)).length = 0
      · simp [hn, hstore]
      · simp only [hn, if_false, hstore, List.length_cons, if_neg
          (Nat.succ_ne_zero _), Option.getD_some]
        congr 1
        push_cast
        ring
    · have hstore : dlookup u (dstore d p.user
          ((dlookup p.user d).getD 0 + 1)) = dlookup u d := by
        rw [dlookup_dstore, if_neg (fun h => hp h.symm)]
      rw [List.filter_cons_of_neg (by simp [hp])]
      rw [hstore]

/-- C3 counterexample: two `User` values with the same numeric identifier
but different display names are distinct keys, and `_posting_stats` of two
postings by them holds two separate entries whose `user_id` is equal,
instead of merging them. -/
theorem c3_counterexample :
    posting_stats
        [{ posting_id := 20, parent_id := none, user := sampleUser
           thread_id := 10, published := 1, upvotes := 0, downvotes := 0 },
         { posting_id := 21, parent_id := none, user := sampleUserB
           thread_id := 10, published := 2, upvotes := 0, downvotes := 0 }] =
      [(sampleUser, 1), (sampleUserB, 1)] ∧
    sampleUser ≠ sampleUserB ∧
    sampleUser.user_id = sampleUserB.user_id := by
  refine ⟨rfl, by decide, rfl⟩

/-- C3 amended: equality (and hence hashing) of the frozen dataclass `User`
compares all fields, identifier and display name; aggregation in
`_posting_stats` therefore merges under full `(user_id, name)` equality,
counting for each author key the postings whose `user` equals it. -/
theorem c3_user_identity_by_all_fields :
    (∀ u v : User, u = v ↔ u.user_id = v.user_id ∧ u.name = v.name) ∧
    ∀ (ps : List Posting) (u : User),
      dlookup u (posting_stats ps) =
        if (ps.filter (fun p => p.user = u)).length = 0 then none
        else some (((ps.filter (fun p => p.user = u)).length : Int)) := by
  constructor
  · intro u v
    constructor
    · rintro rfl; exact ⟨rfl, rfl⟩
    · rintro ⟨h1, h2⟩
      cases u; cases v
      cases h1; cases h2
      rfl
  · intro ps u
    unfold posting_stats
    rw [posting_stats_fold u ps []]
    by_cases hn : (ps.filter (fun p => p.user = u)).length = 0 <;>
      simp [hn, dlookup]

/-- Helper: `asyncio.gather` over the batch fails when any member's fetch
exhausts its retries. -/
theorem gather_postings_none (env : Env) (t : Thread) :
    ∀ l : List Thread, t ∈ l → env.fetchPostings t = none →
      gather_postings env l = none := by
  intro l
  induction l with
  | nil => intro h; cases h
  | cons t0 l ih =>
    intro hmem hnone
    rcases List.mem_cons.mp hmem with rfl | hmem2
    · unfold gather_postings
      rw [hnone]
    · have hl := ih hmem2 hnone
      unfold gather_postings
      rw [hl]
      cases env.fetchPostings t0 <;> rfl

/-- C4: if any candidate thread's posting fetch exhausts its retry budget,
the whole cycle fails with `UpdateError` ("posting download failed") and
the per-ticker state is identical to its value before the cycle: no thread
of the batch has its counts folded in. -/
theorem c4_batch_atomicity (g : Gadse) (env : Env) (s : PersistentState)
    (threads : List Thread) (t : Thread)
    (h1 : env.fetchThreads s.ticker_id = some threads)
    (h2 : t ∈ update_threads s threads)
    (h3 : env.fetchPostings t = none) :
    runUpdateOne g env s = (s, some UpdateError.postingDownloadFailed) := by
  have hg : gather_postings env (update_threads s threads) = none :=
    gather_postings_none env t _ h2 h3
  unfold runUpdateOne _update
  rw [h1]
  simp [hg]

/-- Closed instance of `c4_batch_atomicity`: a one-thread batch whose
posting fetch fails leaves the fresh state of ticker 1 untouched. -/
theorem c4_batch_atomicity_witness :
    envFailPostings.fetchThreads sampleState.ticker_id = some [sampleThread] ∧
    sampleThread ∈ update_threads sampleState [sampleThread] ∧
    envFailPostings.fetchPostings sampleThread = none ∧
    runUpdateOne (mkGadse [1] 50 5 10) envFailPostings sampleState =
      (sampleState, some UpdateError.postingDownloadFailed) :=
  ⟨rfl, by decide, rfl,
    c4_batch_atomicity (mkGadse [1] 50 5 10) envFailPostings sampleState
      [sampleThread] sampleThread rfl (by decide) rfl⟩

/-- C10: a coordinator constructed over an empty collection of ticker ids
has an empty combined ranking, while its `last_update` accessor has no
value (`max` over the empty sequence of states raises `ValueError`). -/
theorem c10_empty_coordinator_accessors (w : Int) (r : Nat) (d : Int) :
    ranking (mkGadse [] w r d) = [] ∧ last_update (mkGadse [] w r d) = none :=
  ⟨rfl, rfl⟩

/-- C2 counterexample: a coordinator over tickers 1 and 2, where the
listing of ticker 1 fails every attempt: `update` raises and leaves the
whole coordinator unchanged, although updating ticker 2 on its own would
have succeeded and produced a different state — so the other tracked
ticker is not updated in that cycle, contrary to the claim. -/
theorem c2_counterexample :
    update (mkGadse [1, 2] 50 5 10) envFirstFails =
      (mkGadse [1, 2] 50 5 10, some UpdateError.cookieOrThreadUpdateFailed) ∧
    _update (mkGadse [1, 2] 50 5 10) envFirstFails { ticker_id := 2 } =
      Except.ok
        { ticker_id := 2, active_postcount := [(sampleUser, 1)]
          last_update := 3 } ∧
    ({ ticker_id := 2, active_postcount := [(sampleUser, 1)]
       last_update := 3 } : PersistentState) ≠ { ticker_id := 2 } := by
  refine ⟨rfl, rfl, by decide⟩

/-- C2 amended: the coordinator updates its tickers sequentially and the
first `UpdateError` aborts the loop: tickers ordered before the failing one
are updated in that cycle, while the failing ticker and every ticker after
it keep their previous state until a later cycle (the exception escapes to
the caller). -/
theorem c2_failure_aborts_cycle (g : Gadse) (env : Env)
    (pre post : List PersistentState) (s : PersistentState) (e : UpdateError)
    (hpre : ∀ x ∈ pre, ∃ y, _update g env x = Except.ok y)
    (hs : _update g env s = Except.error e) :
    updateStates g env (pre ++ s :: post) =
      (pre.map (updOk g env) ++ s :: post, some e) := by
  induction pre with
  | nil =>
    simp only [List.nil_append, List.map_nil]
    unfold updateStates
    rw [hs]
  | cons x pre ih =>
    obtain ⟨y, hy⟩ := hpre x (List.mem_cons_self x pre)
    have ih2 := ih (fun z hz => hpre z (List.mem_cons_of_mem x hz))
    have hup : updOk g env x = y := by
      unfold updOk runUpdateOne
      rw [hy]
    simp only [List.cons_append, List.map_cons]
    unfold updateStates
    rw [hy]
    simp only [ih2, hup]

/-- Closed instance of `c2_failure_aborts_cycle`: ticker 2 (ordered first)
is updated, then the failing ticker 1 aborts the loop. -/
theorem c2_failure_aborts_cycle_witness :
    (∀ x ∈ [({ ticker_id := 2 } : PersistentState)], ∃ y,
        _update (mkGadse [2, 1] 50 5 10) envFirstFails x = Except.ok y) ∧
    _update (mkGadse [2, 1] 50 5 10) envFirstFails { ticker_id := 1 } =
      Except.error UpdateError.cookieOrThreadUpdateFailed ∧
    updateStates (mkGadse [2, 1] 50 5 10) envFirstFails
        ([({ ticker_id := 2 } : PersistentState)] ++
          { ticker_id := 1 } :: []) =
      ([({ ticker_id := 2 } : PersistentState)].map
          (updOk (mkGadse [2, 1] 50 5 10) envFirstFails) ++
        { ticker_id := 1 } :: [],
        some UpdateError.cookieOrThreadUpdateFailed) := by
  have hpre : ∀ x ∈ [({ ticker_id := 2 } : PersistentState)], ∃ y,
      _update (mkGadse [2, 1] 50 5 10) envFirstFails x = Except.ok y := by
    intro x hx
    obtain rfl := List.mem_singleton.mp hx
    exact ⟨{ ticker_id := 2, active_postcount := [(sampleUser, 1)]
             last_update := 3 }, rfl⟩
  exact ⟨hpre, rfl,
    c2_failure_aborts_cycle (mkGadse [2, 1] 50 5 10) envFirstFails
      [{ ticker_id := 2 }] [] { ticker_id := 1 }
      UpdateError.cookieOrThreadUpdateFailed hpre rfl⟩

/-- Helper: membership in a Python set after `add`. -/
theorem pysetAdd_mem {α : Type} [DecidableEq α] (s : List α) (x y : α) :
    y ∈ pysetAdd s x ↔ y = x ∨ y ∈ s := by
  unfold pysetAdd
  by_cases h : x ∈ s
  · rw [if_pos h]
    constructor
    · exact Or.inr
    · rintro (rfl | hy)
      · exact h
      · exact hy
  · rw [if_neg h]
    simp [List.mem_append, or_comm]

/-- Helper: membership in `retired_threads` after the reclassification
loop: exactly the previously retired threads plus the processed threads
published before the window cutoff. -/
theorem fold_retired_mem (g : Gadse) (env : Env) :
    ∀ (P : List (Thread × List Posting))
      (acc : PersistentState × PyDict User Int) (x : Thread),
      x ∈ ((P.foldl (update_fold_step g env) acc).1).retired_threads ↔
        x ∈ acc.1.retired_threads ∨
          (x ∈ P.map (fun tp => tp.1) ∧
            x.published < env.now - g.window) := by
  intro P
  induction P with
  | nil => intro acc x; simp
  | cons tp P ih =>
    intro acc x
    rw [List.foldl_cons, ih]
    by_cases hc : tp.1.published < env.now - g.window
    · rw [update_fold_step, if_pos hc]
      simp only [List.map_cons, List.mem_cons]
      rw [pysetAdd_mem]
      constructor
      · rintro ((rfl | hy) | ⟨hm, ho⟩)
        · exact Or.inr ⟨Or.inl rfl, hc⟩
        · exact Or.inl hy
        · exact Or.inr ⟨Or.inr hm, ho⟩
      · rintro (hy | ⟨(heq | hm), ho⟩)
        · exact Or.inl (Or.inr hy)
        · exact Or.inl (Or.inl heq)
        · exact Or.inr ⟨hm, ho⟩
    · rw [update_fold_step, if_neg hc]
      simp only [List.map_cons, List.mem_cons]
      constructor
      · rintro (hy | ⟨hm, ho⟩)
        · exact Or.inl hy
        · exact Or.inr ⟨Or.inr hm, ho⟩
      · rintro (hy | ⟨(rfl | hm), ho⟩)
        · exact Or.inl hy
        · exact absurd ho hc
        · exact Or.inr ⟨hm, ho⟩

/-- Helper: inversion of a successful `_update` call. -/
theorem _update_ok_elim (g : Gadse) (env : Env) (s s2 : PersistentState)
    (h : _update g env s = Except.ok s2) :
    ∃ threads, env.fetchThreads s.ticker_id = some threads ∧
      ∃ ps, gather_postings env (update_threads s threads) = some ps ∧
        s2 = { (((update_threads s threads).zip ps).foldl
                  (update_fold_step g env) (s, [])).1 with
               active_postcount :=
                 (((update_threads s threads).zip ps).foldl
                   (update_fold_step g env) (s, [])).2
               last_update := env.utcnow } := by
  unfold _update at h
  split at h
  · cases h
  · rename_i threads h1
    split at h
    · cases h
    · rename_i ps h2
      injection h with h3
      exact ⟨threads, h1, ps, h2, h3.symm⟩

/-- Helper: one cycle never removes a thread from `retired_threads`,
whether the cycle succeeds or fails. -/
theorem runUpdateOne_retired_mono (g : Gadse) (env : Env)
    (s : PersistentState) (x : Thread) (hx : x ∈ s.retired_threads) :
    x ∈ ((runUpdateOne g env s).1).retired_threads := by
  unfold runUpdateOne
  cases h : _update g env s with
  | error e => exact hx
  | ok s2 =>
    obtain ⟨threads, h1, ps, h2, rfl⟩ := _update_ok_elim g env s s2 h
    exact (fold_retired_mem g env _ (s, []) x).mpr (Or.inl hx)

/-- C6: retirement is irrevocable: over any number of update cycles the
retired set only grows, and a thread retired at the start of a cycle is
never in that cycle's candidate list (`set(threads) - retired_threads`),
hence never fetched again. -/
theorem c6_retirement_irrevocable (g : Gadse) (s : PersistentState)
    (envs : List Env) (t : Thread) (threads : List Thread) :
    (∀ x, x ∈ s.retired_threads →
      x ∈ (runCycles g s envs).retired_threads) ∧
    (t ∈ s.retired_threads → t ∉ update_threads s threads) := by
  constructor
  · intro x
    induction envs generalizing s with
    | nil => intro hx; exact hx
    | cons env envs ih =>
      intro hx
      exact ih _ (runUpdateOne_retired_mono g env s x hx)
  · intro ht hmem
    rw [update_threads, List.mem_insertionSort] at hmem
    have h2 := (List.mem_filter.mp hmem).2
    simp only [Bool.not_eq_true', decide_eq_false_iff_not] at h2
    exact h2 ht

/-- Closed instance of `c6_retirement_irrevocable`: a retired thread stays
retired after a cycle and is excluded from the candidates even when it is
listed again. -/
theorem c6_retirement_irrevocable_witness :
    sampleThread ∈
      ({ ticker_id := 1, retired_threads := [sampleThread] } :
        PersistentState).retired_threads ∧
    sampleThread ∈
      (runCycles (mkGadse [1] 50 5 10)
        { ticker_id := 1, retired_threads := [sampleThread] }
        [envOk]).retired_threads ∧
    sampleThread ∉
      update_threads { ticker_id := 1, retired_threads := [sampleThread] }
        [sampleThread] := by
  refine ⟨by decide, ?_, ?_⟩
  · exact (c6_retirement_irrevocable (mkGadse [1] 50 5 10)
      { ticker_id := 1, retired_threads := [sampleThread] } [envOk]
      sampleThread [sampleThread]).1 sampleThread (by decide)
  · exact (c6_retirement_irrevocable (mkGadse [1] 50 5 10)
      { ticker_id := 1, retired_threads := [sampleThread] } []
      sampleThread [sampleThread]).2 (by decide)

/-- Helper: zipping a list with its own image lists the graph pairs. -/
theorem zip_map_self {α β : Type} (l : List α) (f : α → β) :
    l.zip (l.map f) = l.map (fun x => (x, f x)) := by
  induction l with
  | nil => rfl
  | cons x l ih => simp [ih]

/-- Helper: a successful gather returns, in order, the fetched posting list
of every candidate. -/
theorem gather_some_eq (env : Env) :
    ∀ (l : List Thread) (ps : List (List Posting)),
      gather_postings env l = some ps → ps = l.map (fp env) := by
  intro l
  induction l with
  | nil =>
    intro ps h
    cases h
    rfl
  | cons t l ih =>
    intro ps h
    unfold gather_postings at h
    split at h
    · rename_i p ps0 hp hg
      injection h with h
      rw [← h, ih ps0 hg]
      simp [fp, hp]
    · cases h

/-- Helper: a successful gather means every candidate's fetch succeeded. -/
theorem gather_isSome (env : Env) :
    ∀ (l : List Thread) (ps : List (List Posting)),
      gather_postings env l = some ps →
        ∀ t ∈ l, (env.fetchPostings t).isSome := by
  intro l
  induction l with
  | nil => intro ps _ t ht; cases ht
  | cons t0 l ih =>
    intro ps h t ht
    unfold gather_postings at h
    split at h
    · rename_i p ps0 hp hg
      rcases List.mem_cons.mp ht with rfl | ht2
      · rw [hp]; rfl
      · exact ih ps0 hg t ht2
    · cases h

/-- Helper: when every candidate's fetch succeeds, gather succeeds and
returns the fetched lists. -/
theorem gather_of_isSome (env : Env) :
    ∀ l : List Thread, (∀ t ∈ l, (env.fetchPostings t).isSome) →
      gather_postings env l = some (l.map (fp env)) := by
  intro l
  induction l with
  | nil => intro _; rfl
  | cons t l ih =>
    intro h
    obtain ⟨p, hp⟩ :=
      Option.isSome_iff_exists.mp (h t (List.mem_cons_self t l))
    have hl := ih (fun x hx => h x (List.mem_cons_of_mem _ hx))
    unfold gather_postings
    rw [hp, hl]
    simp [fp, hp]

/-- Helper: the reclassification loop never changes `ticker_id`. -/
theorem fold_ticker (g : Gadse) (env : Env) :
    ∀ (P : List (Thread × List Posting))
      (acc : PersistentState × PyDict User Int),
      ((P.foldl (update_fold_step g env) acc).1).ticker_id =
        acc.1.ticker_id := by
  intro P
  induction P with
  | nil => intro acc; rfl
  | cons tp P ih =>
    intro acc
    rw [List.foldl_cons, ih]
    unfold update_fold_step
    by_cases hc : tp.1.published < env.now - g.window
    · rw [if_pos hc]
    · rw [if_neg hc]

/-- Helper: when no processed thread is older than the cutoff, the loop
leaves the state component of the accumulator untouched. -/
theorem fold_state_no_old (g : Gadse) (env : Env) :
    ∀ (P : List (Thread × List Posting))
      (acc : PersistentState × PyDict User Int),
      (∀ tp ∈ P, ¬ tp.1.published < env.now - g.window) →
      ((P.foldl (update_fold_step g env) acc).1) = acc.1 := by
  intro P
  induction P with
  | nil => intro acc _; rfl
  | cons tp P ih =>
    intro acc h
    rw [List.foldl_cons,
      ih _ (fun x hx => h x (List.mem_cons_of_mem _ hx))]
    unfold update_fold_step
    rw [if_neg (h tp (List.mem_cons_self tp P))]

/-- Helper: the `active_threads` dict built by the loop is the stats fold,
over the threads that stay active, of the accumulator's dict component;
in particular it does not depend on the state component. -/
theorem fold_active_eq (g : Gadse) (env : Env) :
    ∀ (L : List Thread) (acc : PersistentState × PyDict User Int),
      ((L.map (fun t => (t, fp env t))).foldl
          (update_fold_step g env) acc).2 =
        activeFold env acc.2 (L.filter (isActive g env)) := by
  intro L
  induction L with
  | nil => intro acc; rfl
  | cons t L ih =>
    intro acc
    simp only [List.map_cons, List.foldl_cons]
    by_cases hc : t.published < env.now - g.window
    · rw [List.filter_cons_of_neg (by simp [isActive, hc])]
      have hstep : (update_fold_step g env acc (t, fp env t)).2 = acc.2 := by
        unfold update_fold_step
        rw [if_pos hc]
      rw [ih, hstep]
    · rw [List.filter_cons_of_pos (by simp [isActive, hc])]
      have hstep : (update_fold_step g env acc (t, fp env t)).2 =
          join_dicts acc.2 (posting_stats (fp env t)) (fun x y => x + y) := by
        unfold update_fold_step
        rw [if_neg hc]
      rw [ih, hstep]
      rfl

/-- Helper: lookup in a stats fold is an option-level fold of lookups. -/
theorem activeFold_lookup (env : Env) (u : User) :
    ∀ (L : List Thread) (a : PyDict User Int),
      dlookup u (activeFold env a L) =
        (L.map (fun t => dlookup u (posting_stats (fp env t)))).foldl
          (optCombine (fun x y => x + y)) (dlookup u a) := by
  intro L
  induction L with
  | nil => intro a; rfl
  | cons t L ih =>
    intro a
    simp only [List.map_cons, List.foldl_cons]
    have h0 : activeFold env a (t :: L) =
        activeFold env
          (join_dicts a (posting_stats (fp env t)) (fun x y => x + y)) L :=
      rfl
    rw [h0, ih, dlookup_join]

/-- Helper: membership in the candidate list. -/
theorem update_threads_mem (s : PersistentState) (threads : List Thread)
    (t : Thread) :
    t ∈ update_threads s threads ↔
      t ∈ threads.dedup ∧ t ∉ s.retired_threads := by
  unfold update_threads
  rw [List.mem_insertionSort, List.mem_filter]
  simp

/-- Helper: projecting the threads back out of the graph pairs. -/
theorem map_fst_pairs (env : Env) (L : List Thread) :
    (L.map (fun t => (t, fp env t))).map (fun tp => tp.1) = L := by
  induction L with
  | nil => rfl
  | cons t L ih => simp only [List.map_cons, ih]

/-- Helper: right commutativity of the option-level count combination. -/
theorem optCombine_add_right_comm (z x y : Option Int) :
    optCombine (fun a b => a + b) (optCombine (fun a b => a + b) z x) y =
      optCombine (fun a b => a + b) (optCombine (fun a b => a + b) z y) x := by
  cases z <;> cases x <;> cases y <;> simp [optCombine] <;> ring

/-- Helper: introduction form of a successful `_update` call. -/
theorem _update_ok_intro (g : Gadse) (env : Env) (s : PersistentState)
    (threads : List Thread) (ps : List (List Posting))
    (h1 : env.fetchThreads s.ticker_id = some threads)
    (h2 : gather_postings env (update_threads s threads) = some ps) :
    _update g env s = Except.ok
      { (((update_threads s threads).zip ps).foldl
            (update_fold_step g env) (s, [])).1 with
        active_postcount :=
          (((update_threads s threads).zip ps).foldl
            (update_fold_step g env) (s, [])).2
        last_update := env.utcnow } := by
  unfold _update
  simp only [h1, h2]

/-- C7: in every successful cycle the committed `active_postcount` is the
stats fold, from the empty mapping, over the threads classified active in
that cycle — independent of the previous `active_postcount` and of
`retired_postcount` — and an immediately repeated cycle (same environment:
unchanged thread list, no new postings, same clock) succeeds, leaves
`retired_threads` and `retired_postcount` unchanged, and recomputes an
extensionally equal `active_postcount`. -/
theorem c7_active_recomputed_each_cycle (g : Gadse) (env : Env)
    (s : PersistentState) :
    (∀ (a r : PyDict User Int) (s2 s3 : PersistentState),
        _update g env s = Except.ok s2 →
        _update g env
            { s with active_postcount := a, retired_postcount := r } =
          Except.ok s3 →
        s3.active_postcount = s2.active_postcount) ∧
    (∀ (threads : List Thread) (s2 : PersistentState),
        env.fetchThreads s.ticker_id = some threads →
        _update g env s = Except.ok s2 →
        s2.active_postcount =
          activeFold env []
            ((update_threads s threads).filter (isActive g env))) ∧
    (∀ s1 : PersistentState, _update g env s = Except.ok s1 →
      ∃ s2, _update g env s1 = Except.ok s2 ∧
        s2.retired_threads = s1.retired_threads ∧
        s2.retired_postcount = s1.retired_postcount ∧
        s2.last_update = s1.last_update ∧
        PyDictEq s2.active_postcount s1.active_postcount) := by
  have key : ∀ (s0 : PersistentState) (threads : List Thread)
      (s2 : PersistentState),
      env.fetchThreads s0.ticker_id = some threads →
      _update g env s0 = Except.ok s2 →
      s2.active_postcount =
        activeFold env []
          ((update_threads s0 threads).filter (isActive g env)) := by
    intro s0 threads s2 hthreads h
    obtain ⟨t1, h1, ps, h2, hs2⟩ := _update_ok_elim g env s0 s2 h
    have ht1 : t1 = threads := Option.some.inj (h1.symm.trans hthreads)
    rw [ht1] at h2 hs2
    have hps : ps = (update_threads s0 threads).map (fp env) :=
      gather_some_eq env _ _ h2
    have hzip : (update_threads s0 threads).zip ps =
        (update_threads s0 threads).map (fun t => (t, fp env t)) := by
      rw [hps, zip_map_self]
    rw [hs2, hzip]
    dsimp only
    exact fold_active_eq g env _ _
  refine ⟨?_, ?_, ?_⟩
  · intro a r s2 s3 h2 h3
    obtain ⟨t1, h1, _, _, _⟩ := _update_ok_elim g env s s2 h2
    have h1b : env.fetchThreads
        ({ s with active_postcount := a, retired_postcount := r } :
          PersistentState).ticker_id = some t1 := h1
    have huts : update_threads
        { s with active_postcount := a, retired_postcount := r } t1 =
          update_threads s t1 := rfl
    rw [key s t1 s2 h1 h2, key _ t1 s3 h1b h3, huts]
  · intro threads s2 hthreads h
    exact key s threads s2 hthreads h
  · intro s1 h
    obtain ⟨threads, h1, ps, h2, hs1⟩ := _update_ok_elim g env s s1 h
    have hps : ps = (update_threads s threads).map (fp env) :=
      gather_some_eq env _ _ h2
    have hzip : (update_threads s threads).zip ps =
        (update_threads s threads).map (fun t => (t, fp env t)) := by
      rw [hps, zip_map_self]
    have htick : s1.ticker_id = s.ticker_id := by
      rw [hs1]
      exact fold_ticker g env _ _
    have hlast : s1.last_update = env.utcnow := by
      rw [hs1]
    have hret : ∀ x : Thread, x ∈ s1.retired_threads ↔
        x ∈ s.retired_threads ∨
          (x ∈ update_threads s threads ∧
            x.published < env.now - g.window) := by
      intro x
      rw [hs1]
      dsimp only
      rw [hzip, fold_retired_mem g env _ _ x, map_fst_pairs]
    have hact : s1.active_postcount =
        activeFold env []
          ((update_threads s threads).filter (isActive g env)) :=
      key s threads s1 h1 h
    have h1b : env.fetchThreads s1.ticker_id = some threads := by
      rw [htick]
      exact h1
    have hsome1 : ∀ t ∈ update_threads s threads,
        (env.fetchPostings t).isSome := gather_isSome env _ _ h2
    have hsub : ∀ t ∈ update_threads s1 threads,
        t ∈ update_threads s threads := by
      intro t ht
      have hm := (update_threads_mem s1 threads t).mp ht
      refine (update_threads_mem s threads t).mpr ⟨hm.1, ?_⟩
      intro hmem
      exact hm.2 ((hret t).mpr (Or.inl hmem))
    have hg2 : gather_postings env (update_threads s1 threads) =
        some ((update_threads s1 threads).map (fp env)) :=
      gather_of_isSome env _ (fun t ht => hsome1 t (hsub t ht))
    have hactive2 : ∀ t ∈ update_threads s1 threads,
        isActive g env t = true := by
      intro t ht
      have hm := (update_threads_mem s1 threads t).mp ht
      by_contra hcon
      have hold : t.published < env.now - g.window := by
        by_contra hno
        exact hcon (by simp [isActive, hno])
      exact hm.2 ((hret t).mpr (Or.inr ⟨hsub t ht, hold⟩))
    have hzip2 : (update_threads s1 threads).zip
        ((update_threads s1 threads).map (fp env)) =
          (update_threads s1 threads).map (fun t => (t, fp env t)) :=
      zip_map_self _ _
    have hnoold : ∀ tp ∈ (update_threads s1 threads).map
        (fun t => (t, fp env t)),
        ¬ tp.1.published < env.now - g.window := by
      intro tp htp
      obtain ⟨t, ht, rfl⟩ := List.mem_map.mp htp
      intro hold
      have h2a := hactive2 t ht
      simp [isActive, hold] at h2a
    have hF21 : (((update_threads s1 threads).zip
          ((update_threads s1 threads).map (fp env))).foldl
            (update_fold_step g env) (s1, [])).1 = s1 := by
      rw [hzip2]
      exact fold_state_no_old g env _ _ hnoold
    refine ⟨_, _update_ok_intro g env s1 threads _ h1b hg2, ?_, ?_, ?_, ?_⟩
    · dsimp only
      rw [hF21]
    · dsimp only
      rw [hF21]
    · dsimp only
      rw [hlast]
    · intro u
      dsimp only
      rw [hzip2, fold_active_eq, List.filter_eq_self.mpr hactive2, hact]
      rw [activeFold_lookup, activeFold_lookup]
      have p1 : (update_threads s1 threads).Perm
          ((threads.dedup).filter
            (fun t => !(decide (t ∈ s1.retired_threads)))) :=
        List.perm_insertionSort _ _
      have p2 : ((update_threads s threads).filter (isActive g env)).Perm
          (((threads.dedup).filter
              (fun t => !(decide (t ∈ s.retired_threads)))).filter
            (isActive g env)) :=
        (List.perm_insertionSort _ _).filter _
      have p3 : (((threads.dedup).filter
            (fun t => !(decide (t ∈ s.retired_threads)))).filter
          (isActive g env)) =
            (threads.dedup).filter
              (fun t => isActive g env t &&
                !(decide (t ∈ s.retired_threads))) := by
        rw [List.filter_filter]
      have p4 : (threads.dedup).filter
          (fun t => !(decide (t ∈ s1.retired_threads))) =
            (threads.dedup).filter
              (fun t => isActive g env t &&
                !(decide (t ∈ s.retired_threads))) := by
        refine List.filter_congr ?_
        intro t htd
        by_cases h0 : t ∈ s.retired_threads
        · have hm1 : t ∈ s1.retired_threads := (hret t).mpr (Or.inl h0)
          simp [hm1, h0]
        · by_cases hOld : t.published < env.now - g.window
          · have htu : t ∈ update_threads s threads :=
              (update_threads_mem _ _ _).mpr ⟨htd, h0⟩
            have hm1 : t ∈ s1.retired_threads :=
              (hret t).mpr (Or.inr ⟨htu, hOld⟩)
            simp [hm1, isActive, hOld]
          · have hm1 : t ∉ s1.retired_threads := by
              intro hmem
              rcases (hret t).mp hmem with h | ⟨_, ho⟩
              exacts [h0 h, hOld ho]
            simp [hm1, isActive, hOld, h0]
      rw [p4, ← p3] at p1
      have hperm := p1.trans p2.symm
      have hmap := hperm.map
        (fun t => dlookup u (posting_stats (fp env t)))
      exact hmap.foldl_eq'
        (fun x _ y _ z => optCombine_add_right_comm z x y) _

/-- Closed instance of `c7_active_recomputed_each_cycle`: one recent and
one old thread; the cycle retires the old thread, recomputes the active
counts from scratch whatever the previous dicts held, and a second
identical cycle changes nothing but recomputes the same active counts. -/
theorem c7_active_recomputed_each_cycle_witness :
    (_update (mkGadse [1] 50 5 10) envOk sampleState = Except.ok
      { ticker_id := 1, retired_postcount := [(sampleUser, 1)]
        active_postcount := [(sampleUser, 1)]
        retired_threads := [sampleThreadOld], last_update := 3 }) ∧
    (_update (mkGadse [1] 50 5 10) envOk
        { sampleState with
            active_postcount := [(sampleUserB, 7)]
            retired_postcount := [(sampleUser, 9)] } = Except.ok
      { ticker_id := 1, retired_postcount := [(sampleUser, 10)]
        active_postcount := [(sampleUser, 1)]
        retired_threads := [sampleThreadOld], last_update := 3 }) ∧
    (({ ticker_id := 1, retired_postcount := [(sampleUser, 10)]
        active_postcount := [(sampleUser, 1)]
        retired_threads := [sampleThreadOld], last_update := 3 } :
          PersistentState).active_postcount =
      ({ ticker_id := 1, retired_postcount := [(sampleUser, 1)]
         active_postcount := [(sampleUser, 1)]
         retired_threads := [sampleThreadOld], last_update := 3 } :
          PersistentState).active_postcount) ∧
    (envOk.fetchThreads sampleState.ticker_id =
      some [sampleThread, sampleThreadOld]) ∧
    (({ ticker_id := 1, retired_postcount := [(sampleUser, 1)]
        active_postcount := [(sampleUser, 1)]
        retired_threads := [sampleThreadOld], last_update := 3 } :
          PersistentState).active_postcount =
      activeFold envOk []
        ((update_threads sampleState [sampleThread, sampleThreadOld]).filter
          (isActive (mkGadse [1] 50 5 10) envOk))) ∧
    (∃ s2, _update (mkGadse [1] 50 5 10) envOk
        { ticker_id := 1, retired_postcount := [(sampleUser, 1)]
          active_postcount := [(sampleUser, 1)]
          retired_threads := [sampleThreadOld], last_update := 3 } =
        Except.ok s2 ∧
      s2.retired_threads =
        ({ ticker_id := 1, retired_postcount := [(sampleUser, 1)]
           active_postcount := [(sampleUser, 1)]
           retired_threads := [sampleThreadOld], last_update := 3 } :
            PersistentState).retired_threads ∧
      s2.retired_postcount =
        ({ ticker_id := 1, retired_postcount := [(sampleUser, 1)]
           active_postcount := [(sampleUser, 1)]
           retired_threads := [sampleThreadOld], last_update := 3 } :
            PersistentState).retired_postcount ∧
      s2.last_update =
        ({ ticker_id := 1, retired_postcount := [(sampleUser, 1)]
           active_postcount := [(sampleUser, 1)]
           retired_threads := [sampleThreadOld], last_update := 3 } :
            PersistentState).last_update ∧
      PyDictEq s2.active_postcount
        ({ ticker_id := 1, retired_postcount := [(sampleUser, 1)]
           active_postcount := [(sampleUser, 1)]
           retired_threads := [sampleThreadOld], last_update := 3 } :
            PersistentState).active_postcount) :=
  ⟨rfl, rfl,
    (c7_active_recomputed_each_cycle (mkGadse [1] 50 5 10) envOk
        sampleState).1
      [(sampleUserB, 7)] [(sampleUser, 9)] _ _ rfl rfl,
    rfl,
    (c7_active_recomputed_each_cycle (mkGadse [1] 50 5 10) envOk
        sampleState).2.1
      [sampleThread, sampleThreadOld] _ rfl rfl,
    (c7_active_recomputed_each_cycle (mkGadse [1] 50 5 10) envOk
        sampleState).2.2
      { ticker_id := 1, retired_postcount := [(sampleUser, 1)]
        active_postcount := [(sampleUser, 1)]
        retired_threads := [sampleThreadOld], last_update := 3 } rfl⟩

end Tickergadse
